import Mathlib

/-!
Verification of the contract-metadata module of safe-transaction-service
(`safe_transaction_service/contracts/models.py`).

The module resolves contract ABIs through a fallback chain (Sourcify as the
canonical metadata source, then the Etherscan explorer API), de-duplicates
ABI records by content, and links contract records to ABI records.

We shallowly embed the two entry points `ContractManager.create_from_address`
and `Contract.sync_abi_from_api`, the validator `validate_abi`, and the
store operations they use (Django `update_or_create`, `get`, `create`,
`save(update_fields=[contract_abi])`).  External collaborators (the two
metadata providers and the persisted store) are modelled by explicit
behaviour values and an explicit store state, so every run of the embedded
functions is a pure computation.
-/

set_option autoImplicit false

namespace ContractsModels

/-- One descriptor (function / event / constructor entry) of a contract ABI.
The `type` and `name` keys are the ones structural ABI normalization looks
at; every other key of the JSON object is abstracted into `payload`. -/
structure AbiEntry where
  type : Option String
  name : Option String
  payload : Nat
deriving DecidableEq, Repr

/-- An ABI content value as it travels through the code: JSON `null`
(Python `None`), a JSON array of descriptors, or some other JSON value
(abstracted to its serialized text, used only for malformed content). -/
inductive AbiValue where
  | null
  | list (entries : List AbiEntry)
  | other (blob : String)
deriving DecidableEq, Repr

/-- Python truthiness of an ABI value: `None`, the empty list and the empty
blob are falsy, everything else is truthy. -/
def abiTruthy : AbiValue → Bool
  | .null => false
  | .list es => !es.isEmpty
  | .other s => !s.isEmpty

/-- Django `ValidationError` raised by `validate_abi`, carrying the reason
text interpolated into the message. -/
inductive ValidationError where
  | invalidAbi (reason : String)
deriving DecidableEq, Repr

/-- Modelled from the spec: web3's `normalize_abi` is an external library
function not part of this repository.  Per the spec it accepts content that
describes "a well-formed sequence of function/event/constructor descriptors
with name/type fields" and raises `ValueError` otherwise: every descriptor
must carry a `type`, and function/event descriptors must carry a `name`. -/
def entryWellFormed (e : AbiEntry) : Bool :=
  match e.type with
  | none => false
  | some t =>
    if t == "function" || t == "event" then e.name.isSome
    else t == "constructor" || t == "fallback" || t == "receive"

/-- Modelled from the spec: structural ABI normalization succeeds exactly on
a JSON array whose descriptors are all well-formed, and fails with a reason
string otherwise. -/
def normalize_abi : AbiValue → Except String Unit
  | .null => .error "ABI content is not a sequence of descriptors"
  | .other _ => .error "ABI content is not a sequence of descriptors"
  | .list es =>
    if es.all entryWellFormed then .ok ()
    else .error "ABI descriptor is missing a name or type field"

/-- Embedding of `validate_abi` (models.py lines 34-43): empty or falsy
content raises `ValueError`, then `normalize_abi` runs; any `ValueError`
is re-raised as a `ValidationError` naming the offending reason. -/
def validate_abi (value : AbiValue) : Except ValidationError Unit :=
  if !abiTruthy value then .error (.invalidAbi "Empty ABI not allowed")
  else
    match normalize_abi value with
    | .ok _ => .ok ()
    | .error reason => .error (.invalidAbi reason)

/-- A persisted `ContractAbi` row: primary key, ABI content, description and
relevance (models.py lines 46-53). -/
structure ContractAbiRec where
  pk : Nat
  abi : AbiValue
  description : String
  relevance : Int
deriving DecidableEq, Repr

/-- A persisted `Contract` row: address (primary key), scraped name, user
display name, logo reference and nullable foreign key to a `ContractAbi`
row (models.py lines 143-151). -/
structure ContractRec where
  address : String
  name : String
  display_name : String
  logo : String
  contract_abi : Option Nat
deriving DecidableEq, Repr

/-- The persisted store: the `ContractAbi` table, the next free primary key
for it, and the `Contract` table. -/
structure Store where
  abis : List ContractAbiRec
  nextPk : Nat
  contracts : List ContractRec
deriving DecidableEq, Repr

/-- The store with no rows. -/
def emptyStore : Store := ⟨[], 0, []⟩

/-- Number of `ContractAbi` rows whose content equals `a`. -/
def countAbi (st : Store) (a : AbiValue) : Nat :=
  (st.abis.filter (fun r => r.abi == a)).length

/-- Embedding of Django `ContractAbi.objects.update_or_create(abi=a,
defaults={description: d})` (used at models.py lines 85-88, 177-180 and
188): look the row up by exact ABI content; on a match apply the defaults
(when given) and save; otherwise insert a fresh row whose description is
the default or the empty string.  Returns the row together with the new
store. -/
def updateOrCreateAbi (st : Store) (a : AbiValue) (descDefault : Option String) :
    ContractAbiRec × Store :=
  match st.abis.find? (fun r => r.abi == a) with
  | some r =>
    match descDefault with
    | some d =>
      let r' := { r with description := d }
      (r', { st with abis := st.abis.map (fun x => if x.pk == r.pk then r' else x) })
    | none => (r, st)
  | none =>
    let r : ContractAbiRec := ⟨st.nextPk, a, descDefault.getD "", 100⟩
    (r, { st with abis := st.abis ++ [r], nextPk := st.nextPk + 1 })

/-- Embedding of `super().create(address=..., name=..., contract_abi=...)`
(models.py lines 91-95 and 105-109): insert a `Contract` row; the
`display_name` and `logo` fields take their blank defaults. -/
def contractCreate (st : Store) (address name : String) (caPk : Option Nat) :
    ContractRec × Store :=
  let c : ContractRec := ⟨address, name, "", "", caPk⟩
  (c, { st with contracts := st.contracts ++ [c] })

/-- Embedding of `self.save(update_fields=[contract_abi])` (models.py line
194): persist only the `contract_abi` field of the row with this address. -/
def saveContractAbiField (st : Store) (self : ContractRec) : Store :=
  { st with contracts := st.contracts.map (fun c =>
      if c.address == self.address then { c with contract_abi := self.contract_abi } else c) }

/-- Metadata returned by the canonical provider (Sourcify): an ABI value
(JSON `null` when the verified contract carries none) and a name. -/
structure ContractMetadata where
  abi : AbiValue
  name : String
deriving DecidableEq, Repr

/-- Behaviour of one `sourcify.get_contract_metadata(address)` call:
it returns metadata, returns `None` (contract not verified there), or
raises `IOError` (a transport failure). -/
inductive SourcifyBehavior where
  | returns (md : Option ContractMetadata)
  | transportError
deriving DecidableEq, Repr

/-- Behaviour of one `etherscan.get_contract_abi(address)` call: it returns
an ABI value (JSON `null` standing for Python `None` when nothing was
found) or raises `IOError`. -/
inductive EtherscanFetch where
  | returns (a : AbiValue)
  | transportError
deriving DecidableEq, Repr

/-- Behaviour of the explorer provider: whether constructing the
`EtherscanClient` raises `EtherscanClientConfigurationError`, and what the
fetch does if construction succeeds. -/
structure EtherscanBehavior where
  configurationError : Bool
  fetch : EtherscanFetch
deriving DecidableEq, Repr

instance {ε α : Type} [DecidableEq ε] [DecidableEq α] : DecidableEq (Except ε α) := fun x y =>
  match x, y with
  | .ok a, .ok b =>
    if h : a = b then .isTrue (congrArg Except.ok h)
    else .isFalse (fun hc => h (Except.ok.inj hc))
  | .error a, .error b =>
    if h : a = b then .isTrue (congrArg Except.error h)
    else .isFalse (fun hc => h (Except.error.inj hc))
  | .ok _, .error _ => .isFalse (fun hc => Except.noConfusion hc)
  | .error _, .ok _ => .isFalse (fun hc => Except.noConfusion hc)

/-- An exception escaping one of the resolver entry points. -/
inductive ResolverError where
  | transportError
  | configurationError
deriving DecidableEq, Repr

/-- Result of a `create_from_address` run: the returned value (or the
escaped exception), the final store, and whether the explorer fetch was
invoked. -/
structure CreateOutcome where
  res : Except ResolverError (Option ContractRec)
  store : Store
  explorerInvoked : Bool
deriving DecidableEq, Repr

/-- Embedding of `ContractManager.create_from_address` (models.py lines
77-111).  A Sourcify `IOError` is caught and the method returns `None` at
once.  Truthy metadata leads to `update_or_create` of the ABI row (when the
metadata ABI is truthy) and creation of the contract row.  Otherwise the
Etherscan fallback runs inside a `try` that catches only the configuration
error, so an `IOError` from the fetch escapes; a truthy fetched ABI is
stored through `get` / `create`, a falsy one falls off the end returning
`None`. -/
def create_from_address (st : Store) (address : String)
    (sourcify : SourcifyBehavior) (etherscan : EtherscanBehavior) : CreateOutcome :=
  match sourcify with
  | .transportError => ⟨.ok none, st, false⟩
  | .returns (some md) =>
    if abiTruthy md.abi then
      let ca := (updateOrCreateAbi st md.abi (some md.name)).1
      let st1 := (updateOrCreateAbi st md.abi (some md.name)).2
      ⟨.ok (some (contractCreate st1 address md.name (some ca.pk)).1),
       (contractCreate st1 address md.name (some ca.pk)).2, false⟩
    else
      ⟨.ok (some (contractCreate st address md.name none).1),
       (contractCreate st address md.name none).2, false⟩
  | .returns none =>
    if etherscan.configurationError then ⟨.ok none, st, false⟩
    else
      match etherscan.fetch with
      | .transportError => ⟨.error .transportError, st, true⟩
      | .returns a =>
        if abiTruthy a then
          match st.abis.find? (fun r => r.abi == a) with
          | some ca =>
            ⟨.ok (some (contractCreate st address "" (some ca.pk)).1),
             (contractCreate st address "" (some ca.pk)).2, true⟩
          | none =>
            let ca : ContractAbiRec := ⟨st.nextPk, a, "", 100⟩
            let st1 : Store := { st with abis := st.abis ++ [ca], nextPk := st.nextPk + 1 }
            ⟨.ok (some (contractCreate st1 address "" (some ca.pk)).1),
             (contractCreate st1 address "" (some ca.pk)).2, true⟩
        else ⟨.ok none, st, true⟩

/-- Result of a `sync_abi_from_api` run: the returned boolean (or the
escaped exception), the mutated contract instance, the final store, and
whether the explorer fetch was invoked. -/
structure SyncOutcome where
  res : Except ResolverError Bool
  self : ContractRec
  store : Store
  explorerInvoked : Bool
deriving DecidableEq, Repr

/-- Embedding of `Contract.sync_abi_from_api` (models.py lines 164-196).
The Sourcify call runs inside a `try` that swallows `IOError`; truthy
metadata leads to `update_or_create` of the ABI row with whatever ABI value
the metadata carries (including `None`).  When no ABI row was obtained the
`EtherscanClient` is constructed outside any handler for its configuration
error, so that error escapes; its fetch runs inside a `try` swallowing
`IOError`, and a truthy result is stored through `update_or_create` with no
defaults.  Finally, when an ABI row was obtained, only the `contract_abi`
field is assigned and saved, and the method returns whether a row was
obtained.

The Sourcify phase (models.py lines 173-182) is factored out as
`syncSourcifyStep`: the optional ABI row it produced and the store after
it ran. -/
def syncSourcifyStep (st : Store) (sourcify : SourcifyBehavior) :
    Option ContractAbiRec × Store :=
  match sourcify with
  | .transportError => (none, st)
  | .returns none => (none, st)
  | .returns (some md) =>
    (some (updateOrCreateAbi st md.abi (some md.name)).1,
     (updateOrCreateAbi st md.abi (some md.name)).2)

/-- Embedding of the body of `Contract.sync_abi_from_api` after the
Sourcify phase (models.py lines 184-196), combined with `syncSourcifyStep`
for the full method. -/
def sync_abi_from_api (st : Store) (self : ContractRec)
    (sourcify : SourcifyBehavior) (etherscan : EtherscanBehavior) : SyncOutcome :=
  match (syncSourcifyStep st sourcify).1 with
  | some ca =>
    let self' := { self with contract_abi := some ca.pk }
    ⟨.ok true, self', saveContractAbiField (syncSourcifyStep st sourcify).2 self', false⟩
  | none =>
    if etherscan.configurationError then
      ⟨.error .configurationError, self, (syncSourcifyStep st sourcify).2, false⟩
    else
      match etherscan.fetch with
      | .transportError => ⟨.ok false, self, (syncSourcifyStep st sourcify).2, true⟩
      | .returns a =>
        if abiTruthy a then
          let ca := (updateOrCreateAbi (syncSourcifyStep st sourcify).2 a none).1
          let st2 := (updateOrCreateAbi (syncSourcifyStep st sourcify).2 a none).2
          let self' := { self with contract_abi := some ca.pk }
          ⟨.ok true, self', saveContractAbiField st2 self', true⟩
        else ⟨.ok false, self, (syncSourcifyStep st sourcify).2, true⟩

/-- Whether an `Except` value is a normal return rather than an escaped
exception. -/
def exceptOk {ε α : Type} : Except ε α → Bool
  | .ok _ => true
  | .error _ => false

/-- Whether the canonical provider call produced metadata (as opposed to
returning `None` or raising `IOError`). -/
def sourcifyGaveMetadata : SourcifyBehavior → Bool
  | .returns (some _) => true
  | .returns none => false
  | .transportError => false

/-- A well-formed sample ABI descriptor, used for concrete runs. -/
def sampleEntry : AbiEntry := ⟨some "function", some "transfer", 0⟩

/-- A valid non-empty sample ABI content, used for concrete runs. -/
def sampleAbi : AbiValue := .list [sampleEntry]

/-- A sample contract row with no ABI reference, used for concrete runs. -/
def sampleContract : ContractRec := ⟨"0xC0de", "Token", "", "", none⟩

/-- Phase of one logical thread running the explorer-branch lookup-then-
insert of `create_from_address` (models.py lines 101-104): not yet run,
`ContractAbi.objects.get` raised `DoesNotExist` and the insert is pending,
or finished. -/
inductive ThreadPhase where
  | start
  | observedMiss
  | done
deriving DecidableEq, Repr

/-- One atomic store access of that lookup-then-insert sequence: in phase
`start` the thread performs the content lookup and either finishes (row
found) or records the miss; in phase `observedMiss` it performs
`ContractAbi.objects.create(abi=a, description=...)`. -/
def getOrCreateStep (st : Store) (ph : ThreadPhase) (a : AbiValue) :
    Store × ThreadPhase :=
  match ph with
  | .start =>
    match st.abis.find? (fun r => r.abi == a) with
    | some _ => (st, .done)
    | none => (st, .observedMiss)
  | .observedMiss =>
    let r : ContractAbiRec := ⟨st.nextPk, a, "", 100⟩
    ({ st with abis := st.abis ++ [r], nextPk := st.nextPk + 1 }, .done)
  | .done => (st, .done)

/-- Interleaved execution of two threads both running lookup-then-insert
for the same ABI content `a`.  The schedule lists which thread takes the
next atomic store access (`true` for the first thread). -/
def runSchedule (a : AbiValue) :
    List Bool → Store × ThreadPhase × ThreadPhase → Store × ThreadPhase × ThreadPhase
  | [], s => s
  | t :: rest, (st, p1, p2) =>
    if t then
      runSchedule a rest ((getOrCreateStep st p1 a).1, (getOrCreateStep st p1 a).2, p2)
    else
      runSchedule a rest ((getOrCreateStep st p2 a).1, p1, (getOrCreateStep st p2 a).2)

/-- The row returned by `updateOrCreateAbi` carries the requested content
and is present in the resulting ABI table. -/
theorem updateOrCreateAbi_spec (st : Store) (v : AbiValue) (d : Option String) :
    (updateOrCreateAbi st v d).1.abi = v
    ∧ (updateOrCreateAbi st v d).1 ∈ (updateOrCreateAbi st v d).2.abis := by
  unfold updateOrCreateAbi
  cases hf : st.abis.find? (fun r => r.abi == v) with
  | none => cases d with
    | none => exact ⟨rfl, by simp⟩
    | some dd => exact ⟨rfl, by simp⟩
  | some r =>
    have hrabi : r.abi = v := by
      have := List.find?_some hf
      simpa using this
    have hrmem : r ∈ st.abis := List.mem_of_find?_eq_some hf
    cases d with
    | none => exact ⟨hrabi, hrmem⟩
    | some dd =>
      refine ⟨hrabi, ?_⟩
      have hmap := List.mem_map_of_mem
        (fun x => if x.pk == r.pk then { r with description := dd } else x) hrmem
      simpa using hmap

/-- The `Contract` table is untouched by `updateOrCreateAbi`. -/
theorem updateOrCreateAbi_contracts (st : Store) (v : AbiValue) (d : Option String) :
    (updateOrCreateAbi st v d).2.contracts = st.contracts := by
  unfold updateOrCreateAbi
  cases st.abis.find? (fun r => r.abi == v) with
  | none => cases d <;> rfl
  | some r => cases d <;> rfl

/-- When the ABI table already holds exactly one row with content `v` and
its primary keys are distinct, `updateOrCreateAbi` keeps the number of
rows with content `v` at exactly one. -/
theorem updateOrCreateAbi_count_preserved (st : Store) (v : AbiValue)
    (d : Option String)
    (hpk : (st.abis.map ContractAbiRec.pk).Nodup)
    (h : countAbi st v = 1) :
    countAbi (updateOrCreateAbi st v d).2 v = 1 := by
  obtain ⟨r, hfind⟩ : ∃ r, st.abis.find? (fun x => x.abi == v) = some r := by
    cases hf : st.abis.find? (fun x => x.abi == v) with
    | some r => exact ⟨r, rfl⟩
    | none =>
      exfalso
      have hlen : 0 < (st.abis.filter (fun x => x.abi == v)).length := by
        unfold countAbi at h
        omega
      obtain ⟨x, hx⟩ := List.exists_mem_of_length_pos hlen
      have hx2 := List.mem_filter.mp hx
      have := List.find?_eq_none.mp hf x hx2.1
      exact this hx2.2
  have hrmem : r ∈ st.abis := List.mem_of_find?_eq_some hfind
  have hrabi0 := List.find?_some hfind
  have hrabi : (r.abi == v) = true := hrabi0
  unfold updateOrCreateAbi
  rw [hfind]
  cases d with
  | none => exact h
  | some dd =>
    unfold countAbi at h ⊢
    rw [List.filter_map, List.length_map]
    rw [List.filter_congr ?_]
    · exact h
    · intro x hx
      by_cases hxpk : (x.pk == r.pk) = true
      · have hxr : x = r := by
          apply List.inj_on_of_nodup_map hpk hx hrmem
          simpa using hxpk
        subst hxr
        simp [Function.comp, hxpk]
      · simp [Function.comp, hxpk]

/-- Replacing only the `contract_abi` field of matching rows keeps every
contract row's address, name, display name and logo. -/
theorem forall₂_frame_map (l : List ContractRec) (c : ContractRec) :
    List.Forall₂ (fun a b => b.address = a.address ∧ b.name = a.name
        ∧ b.display_name = a.display_name ∧ b.logo = a.logo) l
      (l.map (fun x =>
        if x.address == c.address then { x with contract_abi := c.contract_abi } else x)) := by
  induction l with
  | nil => exact .nil
  | cons y ys ih =>
    refine .cons ?_ ih
    by_cases h : (y.address == c.address) = true <;> simp [h]

/-- A `sync_abi_from_api` run ends in one of three shapes: an update of
the contract's ABI reference over a store whose contract rows are those of
the initial store (result `True`), a no-op (result `False`), or the
escaped configuration error, also a no-op. -/
theorem sync_cases (st : Store) (self : ContractRec)
    (sb : SourcifyBehavior) (eb : EtherscanBehavior) :
    (∃ pk st2, st2.contracts = st.contracts ∧ sync_abi_from_api st self sb eb
      = ⟨.ok true, { self with contract_abi := some pk },
         saveContractAbiField st2 { self with contract_abi := some pk },
         (sync_abi_from_api st self sb eb).explorerInvoked⟩)
    ∨ sync_abi_from_api st self sb eb
      = ⟨.ok false, self, st, (sync_abi_from_api st self sb eb).explorerInvoked⟩
    ∨ sync_abi_from_api st self sb eb
      = ⟨.error .configurationError, self, st, false⟩ := by
  cases sb with
  | returns md =>
    cases md with
    | some m =>
      exact .inl ⟨(updateOrCreateAbi st m.abi (some m.name)).1.pk,
        (updateOrCreateAbi st m.abi (some m.name)).2,
        updateOrCreateAbi_contracts st m.abi (some m.name), rfl⟩
    | none =>
      cases hcfg : eb.configurationError with
      | false =>
        cases hf : eb.fetch with
        | transportError =>
          refine .inr (.inl ?_)
          simp [sync_abi_from_api, syncSourcifyStep, hcfg, hf]
        | returns a =>
          by_cases ha : abiTruthy a = true
          · refine .inl ⟨(updateOrCreateAbi st a none).1.pk, (updateOrCreateAbi st a none).2,
              updateOrCreateAbi_contracts st a none, ?_⟩
            simp [sync_abi_from_api, syncSourcifyStep, hcfg, hf, ha]
          · refine .inr (.inl ?_)
            simp [sync_abi_from_api, syncSourcifyStep, hcfg, hf, ha]
      | true =>
        refine .inr (.inr ?_)
        simp [sync_abi_from_api, syncSourcifyStep, hcfg]
  | transportError =>
    cases hcfg : eb.configurationError with
    | false =>
      cases hf : eb.fetch with
      | transportError =>
        refine .inr (.inl ?_)
        simp [sync_abi_from_api, syncSourcifyStep, hcfg, hf]
      | returns a =>
        by_cases ha : abiTruthy a = true
        · refine .inl ⟨(updateOrCreateAbi st a none).1.pk, (updateOrCreateAbi st a none).2,
            updateOrCreateAbi_contracts st a none, ?_⟩
          simp [sync_abi_from_api, syncSourcifyStep, hcfg, hf, ha]
        · refine .inr (.inl ?_)
          simp [sync_abi_from_api, syncSourcifyStep, hcfg, hf, ha]
    | true =>
      refine .inr (.inr ?_)
      simp [sync_abi_from_api, syncSourcifyStep, hcfg]

/-- C1: counterexample.  When the canonical fetch fails with a transport
error, `create_from_address` returns `None` at once: the explorer is never
invoked even though it is configured and would return a valid ABI.  This
refutes the claim that both entry points proceed to the explorer after a
canonical `TransportError`. -/
theorem create_transport_error_skips_explorer :
    (create_from_address emptyStore "0xC0de" .transportError
      ⟨false, .returns sampleAbi⟩).res = .ok none
    ∧ (create_from_address emptyStore "0xC0de" .transportError
      ⟨false, .returns sampleAbi⟩).explorerInvoked = false :=
  ⟨rfl, rfl⟩

/-- C1 (amended): after a canonical transport error, `sync_abi_from_api`
treats the canonical source as empty and invokes the configured explorer,
while `create_from_address` ends the attempt immediately, returning `None`
without invoking the explorer; neither path logs. -/
theorem sync_tries_explorer_after_transport_error (st : Store)
    (self : ContractRec) (address : String) (eb : EtherscanBehavior)
    (h : eb.configurationError = false) :
    (sync_abi_from_api st self .transportError eb).explorerInvoked = true
    ∧ (create_from_address st address .transportError eb).res = .ok none
    ∧ (create_from_address st address .transportError eb).explorerInvoked = false := by
  refine ⟨?_, rfl, rfl⟩
  cases hf : eb.fetch with
  | transportError => simp [sync_abi_from_api, syncSourcifyStep, h, hf]
  | returns a =>
    by_cases ha : abiTruthy a = true <;>
      simp [sync_abi_from_api, syncSourcifyStep, h, hf, ha]

theorem sync_tries_explorer_after_transport_error_witness :
    (sync_abi_from_api emptyStore sampleContract .transportError
      ⟨false, .returns sampleAbi⟩).explorerInvoked = true
    ∧ (create_from_address emptyStore "0xC0de" .transportError
      ⟨false, .returns sampleAbi⟩).res = .ok none
    ∧ (create_from_address emptyStore "0xC0de" .transportError
      ⟨false, .returns sampleAbi⟩).explorerInvoked = false :=
  sync_tries_explorer_after_transport_error emptyStore sampleContract "0xC0de"
    ⟨false, .returns sampleAbi⟩ rfl

/-- C2: when the canonical provider returns metadata carrying a name but a
null ABI, `create_from_address` creates and returns a contract row with
that name and no ABI reference, appends exactly that row to the store
(no ABI row is written), and never invokes the explorer. -/
theorem create_name_without_abi (st : Store) (address name : String)
    (eb : EtherscanBehavior) :
    (create_from_address st address (.returns (some ⟨.null, name⟩)) eb).res
      = .ok (some ⟨address, name, "", "", none⟩)
    ∧ (create_from_address st address (.returns (some ⟨.null, name⟩)) eb).store
      = { st with contracts := st.contracts ++ [⟨address, name, "", "", none⟩] }
    ∧ (create_from_address st address
        (.returns (some ⟨.null, name⟩)) eb).explorerInvoked = false := by
  refine ⟨?_, ?_, ?_⟩ <;> simp [create_from_address, contractCreate, abiTruthy]

/-- C3: counterexample.  An explorer transport failure escapes
`create_from_address` as an exception, because the `try` around the
fallback catches only `EtherscanClientConfigurationError`; and an explorer
configuration failure escapes `sync_abi_from_api`, because the client is
constructed outside the handler that swallows `IOError`.  Provider-level
failures therefore do propagate out of the resolver. -/
theorem provider_failures_escape :
    (create_from_address emptyStore "0xC0de" (.returns none)
      ⟨false, .transportError⟩).res = .error .transportError
    ∧ (sync_abi_from_api emptyStore sampleContract (.returns none)
      ⟨true, .returns sampleAbi⟩).res = .error .configurationError :=
  ⟨rfl, rfl⟩

/-- C3 (amended): canonical transport errors are always swallowed, and so
is the explorer configuration error inside `create_from_address`; but an
exception escapes `create_from_address` exactly when the canonical source
returned `None` and the configured explorer fetch raised `IOError`, and an
exception escapes `sync_abi_from_api` exactly when the canonical source
yielded no metadata and the explorer client construction raised its
configuration error. -/
theorem error_escape_characterization (st : Store) (self : ContractRec)
    (address : String) (sb : SourcifyBehavior) (eb : EtherscanBehavior) :
    (exceptOk (create_from_address st address sb eb).res = false ↔
      sb = .returns none ∧ eb.configurationError = false
        ∧ eb.fetch = .transportError)
    ∧ (exceptOk (sync_abi_from_api st self sb eb).res = false ↔
      sourcifyGaveMetadata sb = false ∧ eb.configurationError = true) := by
  obtain ⟨cfg, fetch⟩ := eb
  constructor
  · cases sb with
    | transportError => simp [create_from_address, exceptOk]
    | returns md =>
      cases md with
      | some m =>
        by_cases hm : abiTruthy m.abi = true <;>
          simp [create_from_address, exceptOk, hm]
      | none =>
        cases cfg
        · cases fetch with
          | transportError => simp [create_from_address, exceptOk]
          | returns a =>
            by_cases ha : abiTruthy a = true
            · cases hf : st.abis.find? (fun r => r.abi == a) <;>
                simp [create_from_address, exceptOk, ha, hf]
            · simp [create_from_address, exceptOk, ha]
        · simp [create_from_address, exceptOk]
  · cases sb with
    | transportError =>
      cases cfg
      · cases fetch with
        | transportError =>
          simp [sync_abi_from_api, syncSourcifyStep, exceptOk, sourcifyGaveMetadata]
        | returns a =>
          by_cases ha : abiTruthy a = true <;>
            simp [sync_abi_from_api, syncSourcifyStep, exceptOk,
              sourcifyGaveMetadata, ha]
      · simp [sync_abi_from_api, syncSourcifyStep, exceptOk, sourcifyGaveMetadata]
    | returns md =>
      cases md with
      | some m =>
        simp [sync_abi_from_api, syncSourcifyStep, exceptOk, sourcifyGaveMetadata]
      | none =>
        cases cfg
        · cases fetch with
          | transportError =>
            simp [sync_abi_from_api, syncSourcifyStep, exceptOk, sourcifyGaveMetadata]
          | returns a =>
            by_cases ha : abiTruthy a = true <;>
              simp [sync_abi_from_api, syncSourcifyStep, exceptOk,
                sourcifyGaveMetadata, ha]
        · simp [sync_abi_from_api, syncSourcifyStep, exceptOk, sourcifyGaveMetadata]

/-- C4: counterexample.  With the canonical source empty and the
configured explorer failing with a transport error, `create_from_address`
does not return nothing: the failure surfaces as an exception (the store
is still untouched). -/
theorem create_explorer_transport_error_raises :
    (create_from_address emptyStore "0xC0de" (.returns none)
      ⟨false, .transportError⟩).res = .error .transportError
    ∧ (create_from_address emptyStore "0xC0de" (.returns none)
      ⟨false, .transportError⟩).store = emptyStore :=
  ⟨rfl, rfl⟩

/-- C4 (amended): when the canonical source returns `None` or fails with a
transport error and the explorer is unconfigured or returns no truthy ABI
or fails, `create_from_address` persists nothing (no contract row and no
ABI row: the store is unchanged) and returns `None` — except that an
explorer `IOError` surfaces as an exception rather than as an absent
result, still persisting nothing. -/
theorem create_total_failure_persists_nothing (st : Store) (address : String)
    (sb : SourcifyBehavior) (eb : EtherscanBehavior)
    (hs : sb = .transportError ∨ sb = .returns none)
    (hab : ∀ a, eb.fetch = .returns a → abiTruthy a = false) :
    (create_from_address st address sb eb).store = st
    ∧ ((create_from_address st address sb eb).res = .ok none
       ∨ ((create_from_address st address sb eb).res = .error .transportError
          ∧ sb = .returns none ∧ eb.configurationError = false
          ∧ eb.fetch = .transportError)) := by
  obtain ⟨cfg, fetch⟩ := eb
  rcases hs with rfl | rfl
  · exact ⟨rfl, .inl rfl⟩
  · cases cfg
    · cases fetch with
      | transportError => exact ⟨rfl, .inr ⟨rfl, rfl, rfl, rfl⟩⟩
      | returns a =>
        have ha := hab a rfl
        simp [create_from_address, ha]
    · exact ⟨rfl, .inl rfl⟩

theorem create_total_failure_persists_nothing_witness :
    (create_from_address emptyStore "0xC0de" (.returns none)
      ⟨true, .returns .null⟩).store = emptyStore
    ∧ ((create_from_address emptyStore "0xC0de" (.returns none)
        ⟨true, .returns .null⟩).res = .ok none
       ∨ ((create_from_address emptyStore "0xC0de" (.returns none)
          ⟨true, .returns .null⟩).res = .error .transportError
          ∧ (.returns none : SourcifyBehavior) = .returns none
          ∧ (⟨true, .returns .null⟩ : EtherscanBehavior).configurationError = false
          ∧ (⟨true, .returns .null⟩ : EtherscanBehavior).fetch = .transportError)) :=
  create_total_failure_persists_nothing emptyStore "0xC0de" (.returns none)
    ⟨true, .returns AbiValue.null⟩ (Or.inr rfl) (fun a h => by cases h; rfl)

/-- C5: counterexample.  `validate_abi` rejects the null ABI, yet
`sync_abi_from_api` persists an `AbiRecord` whose content is exactly that
rejected null value when the canonical source returns metadata without an
ABI: the write path never runs the validator. -/
theorem sync_writes_rejected_content :
    validate_abi .null = .error (.invalidAbi "Empty ABI not allowed")
    ∧ (sync_abi_from_api emptyStore sampleContract
        (.returns (some ⟨.null, "Foo"⟩)) ⟨false, .returns .null⟩).store.abis
      = [⟨0, .null, "Foo", 100⟩] :=
  ⟨rfl, rfl⟩

/-- C5 (amended): `validate_abi` rejects every empty, null, or
structurally invalid ABI value with a `ValidationError` naming the
offending reason; but the store write paths do not invoke the validator,
and `sync_abi_from_api` persists an `AbiRecord` holding whatever content
the canonical metadata carries — including content the validator
rejects. -/
theorem validate_rejects_but_sync_bypasses (v : AbiValue) (st : Store)
    (self : ContractRec) (name : String) (eb : EtherscanBehavior)
    (h : abiTruthy v = false ∨ exceptOk (normalize_abi v) = false) :
    (∃ reason, validate_abi v = .error (.invalidAbi reason))
    ∧ ∃ r ∈ (sync_abi_from_api st self
        (.returns (some ⟨v, name⟩)) eb).store.abis, r.abi = v := by
  constructor
  · rcases h with h | h
    · exact ⟨"Empty ABI not allowed", by simp [validate_abi, h]⟩
    · by_cases ht : abiTruthy v = true
      · cases hn : normalize_abi v with
        | ok u => rw [hn] at h; simp [exceptOk] at h
        | error reason => exact ⟨reason, by simp [validate_abi, ht, hn]⟩
      · refine ⟨"Empty ABI not allowed", ?_⟩
        simp only [Bool.not_eq_true] at ht
        simp [validate_abi, ht]
  · obtain ⟨h1, h2⟩ := updateOrCreateAbi_spec st v (some name)
    exact ⟨(updateOrCreateAbi st v (some name)).1, h2, h1⟩

theorem validate_rejects_but_sync_bypasses_witness :
    (∃ reason, validate_abi AbiValue.null = .error (.invalidAbi reason))
    ∧ ∃ r ∈ (sync_abi_from_api emptyStore sampleContract
        (.returns (some ⟨AbiValue.null, "Foo"⟩))
        ⟨false, .returns AbiValue.null⟩).store.abis, r.abi = AbiValue.null :=
  validate_rejects_but_sync_bypasses AbiValue.null emptyStore sampleContract "Foo"
    ⟨false, .returns AbiValue.null⟩ (Or.inl rfl)

/-- C6: counterexample.  `update_or_create` refreshes the matched row's
description unconditionally: an existing row with the non-empty
description "old" has it replaced by the caller's "new", refuting the
claim that the description is refreshed only when the current one is
empty. -/
theorem update_or_create_overwrites_description :
    (updateOrCreateAbi ⟨[⟨0, sampleAbi, "old", 100⟩], 1, []⟩
      sampleAbi (some "new")).2.abis = [⟨0, sampleAbi, "new", 100⟩]
    ∧ (updateOrCreateAbi ⟨[⟨0, sampleAbi, "old", 100⟩], 1, []⟩
      sampleAbi (some "new")).1 = ⟨0, sampleAbi, "new", 100⟩ := by
  exact ⟨by decide, by decide⟩

/-- C6 (amended): calling `update_or_create` with content equal to an
existing row returns that row with its description replaced by the
supplied one (unconditionally), inserts no new row, leaves the next
primary key and the contract table unchanged, and every row of the
resulting table is an untouched original row or the refreshed one. -/
theorem update_or_create_dedup (st : Store) (v : AbiValue) (d : String)
    (r : ContractAbiRec)
    (hfind : st.abis.find? (fun x => x.abi == v) = some r) :
    (updateOrCreateAbi st v (some d)).1 = { r with description := d }
    ∧ (updateOrCreateAbi st v (some d)).2.abis.length = st.abis.length
    ∧ (updateOrCreateAbi st v (some d)).2.nextPk = st.nextPk
    ∧ (updateOrCreateAbi st v (some d)).2.contracts = st.contracts
    ∧ ∀ x ∈ (updateOrCreateAbi st v (some d)).2.abis,
        x ∈ st.abis ∨ x = { r with description := d } := by
  unfold updateOrCreateAbi
  rw [hfind]
  refine ⟨rfl, by simp, rfl, rfl, ?_⟩
  intro x hx
  obtain ⟨y, hy, hyx⟩ := List.mem_map.mp hx
  by_cases hpk : (y.pk == r.pk) = true
  · right
    rw [← hyx]
    simp [hpk]
  · left
    rw [← hyx]
    simpa [hpk] using hy

theorem update_or_create_dedup_witness :
    (updateOrCreateAbi ⟨[⟨0, sampleAbi, "old", 100⟩], 1, []⟩
      sampleAbi (some "new")).1 = ⟨0, sampleAbi, "new", 100⟩
    ∧ (updateOrCreateAbi ⟨[⟨0, sampleAbi, "old", 100⟩], 1, []⟩
      sampleAbi (some "new")).2.abis.length
        = ([⟨0, sampleAbi, "old", 100⟩] : List ContractAbiRec).length
    ∧ (updateOrCreateAbi ⟨[⟨0, sampleAbi, "old", 100⟩], 1, []⟩
      sampleAbi (some "new")).2.nextPk = 1
    ∧ (updateOrCreateAbi ⟨[⟨0, sampleAbi, "old", 100⟩], 1, []⟩
      sampleAbi (some "new")).2.contracts = []
    ∧ ∀ x ∈ (updateOrCreateAbi ⟨[⟨0, sampleAbi, "old", 100⟩], 1, []⟩
        sampleAbi (some "new")).2.abis,
        x ∈ [(⟨0, sampleAbi, "old", 100⟩ : ContractAbiRec)]
          ∨ x = ⟨0, sampleAbi, "new", 100⟩ :=
  update_or_create_dedup ⟨[⟨0, sampleAbi, "old", 100⟩], 1, []⟩ sampleAbi "new"
    ⟨0, sampleAbi, "old", 100⟩ (by decide)

/-- C7: re-running `sync_abi_from_api` on a contract that already holds an
ABI reference, when the provider chain returns ABI content identical to
the stored row's, creates no duplicate: the number of ABI rows with that
content is exactly one before and after the call. -/
theorem sync_same_abi_no_duplicate (st : Store) (self : ContractRec)
    (A : AbiValue) (name : String) (sb : SourcifyBehavior)
    (eb : EtherscanBehavior)
    (hpk : (st.abis.map ContractAbiRec.pk).Nodup)
    (hself : self.contract_abi.isSome = true)
    (hcount : countAbi st A = 1)
    (hprov : sb = .returns (some ⟨A, name⟩)
      ∨ (sb = .returns none ∧ eb.configurationError = false
         ∧ eb.fetch = .returns A)) :
    countAbi (sync_abi_from_api st self sb eb).store A = 1 := by
  rcases hprov with rfl | ⟨rfl, hcfg, hfetch⟩
  · exact updateOrCreateAbi_count_preserved st A (some name) hpk hcount
  · by_cases ha : abiTruthy A = true
    · have hkeep := updateOrCreateAbi_count_preserved st A none hpk hcount
      simpa [sync_abi_from_api, syncSourcifyStep, hcfg, hfetch, ha,
        countAbi, saveContractAbiField] using hkeep
    · simpa [sync_abi_from_api, syncSourcifyStep, hcfg, hfetch, ha,
        countAbi, saveContractAbiField] using hcount

theorem sync_same_abi_no_duplicate_witness :
    countAbi (sync_abi_from_api ⟨[⟨0, sampleAbi, "d", 100⟩], 1, []⟩
      ⟨"0xC0de", "Token", "", "", some 0⟩ (.returns (some ⟨sampleAbi, "d"⟩))
      ⟨false, .returns AbiValue.null⟩).store sampleAbi = 1 :=
  sync_same_abi_no_duplicate ⟨[⟨0, sampleAbi, "d", 100⟩], 1, []⟩
    ⟨"0xC0de", "Token", "", "", some 0⟩ sampleAbi "d"
    (.returns (some ⟨sampleAbi, "d"⟩)) ⟨false, .returns AbiValue.null⟩
    (by decide) rfl (by decide) (Or.inl rfl)

/-- C8: `sync_abi_from_api` persists at most the `contract_abi` field:
every contract row keeps its address, name, display name and logo; when
it returns `False` the store and the in-memory contract are unchanged;
when it returns `True` the in-memory contract differs from the original
at most in `contract_abi`, which is then set. -/
theorem sync_only_updates_abi_ref (st : Store) (self : ContractRec)
    (sb : SourcifyBehavior) (eb : EtherscanBehavior) :
    List.Forall₂ (fun a b => b.address = a.address ∧ b.name = a.name
        ∧ b.display_name = a.display_name ∧ b.logo = a.logo)
      st.contracts (sync_abi_from_api st self sb eb).store.contracts
    ∧ ((sync_abi_from_api st self sb eb).res = .ok false →
        (sync_abi_from_api st self sb eb).store = st
        ∧ (sync_abi_from_api st self sb eb).self = self)
    ∧ ((sync_abi_from_api st self sb eb).res = .ok true →
        (sync_abi_from_api st self sb eb).self
          = { self with
              contract_abi := (sync_abi_from_api st self sb eb).self.contract_abi }
        ∧ (sync_abi_from_api st self sb eb).self.contract_abi.isSome = true) := by
  rcases sync_cases st self sb eb with ⟨pk, st2, hc, heq⟩ | heq | heq
  · refine ⟨?_, ?_, ?_⟩
    · rw [heq]
      show List.Forall₂ _ st.contracts (saveContractAbiField st2 _).contracts
      unfold saveContractAbiField
      rw [hc]
      exact forall₂_frame_map st.contracts _
    · rw [heq]
      intro hcontra
      simp at hcontra
    · rw [heq]
      intro hres
      exact ⟨rfl, rfl⟩
  · refine ⟨?_, ?_, ?_⟩
    · rw [heq]
      exact List.forall₂_same.mpr (fun x hx => ⟨rfl, rfl, rfl, rfl⟩)
    · rw [heq]
      intro hres
      exact ⟨rfl, rfl⟩
    · rw [heq]
      intro hcontra
      simp at hcontra
  · refine ⟨?_, ?_, ?_⟩
    · rw [heq]
      exact List.forall₂_same.mpr (fun x hx => ⟨rfl, rfl, rfl, rfl⟩)
    · rw [heq]
      intro hcontra
      simp at hcontra
    · rw [heq]
      intro hcontra
      simp at hcontra

theorem sync_only_updates_abi_ref_witness :
    (sync_abi_from_api emptyStore sampleContract (.returns none)
      ⟨false, .transportError⟩).store = emptyStore
    ∧ (sync_abi_from_api emptyStore sampleContract (.returns none)
      ⟨false, .transportError⟩).self = sampleContract :=
  (sync_only_updates_abi_ref emptyStore sampleContract (.returns none)
    ⟨false, .transportError⟩).2.1 rfl

/-- C9: the lookup-then-insert of the explorer branch is not atomic.  In
the interleaving where both logical threads first perform the content
lookup on a store lacking the ABI and only then insert, both inserts
happen and two rows with identical content survive — the failing input
for the claimed compare-and-insert atomicity. -/
theorem concurrent_get_or_create_duplicates :
    (runSchedule sampleAbi [true, false, true, false]
      (emptyStore, .start, .start)).2 = (.done, .done)
    ∧ countAbi (runSchedule sampleAbi [true, false, true, false]
        (emptyStore, .start, .start)).1 sampleAbi = 2 :=
  ⟨rfl, rfl⟩

/-- C10: when `sync_abi_from_api` sees canonical metadata whose ABI field
is null (name only), it persists or links an ABI row whose content is
null, sets the contract's ABI reference to that row, never invokes the
explorer, and returns `True`. -/
theorem sync_null_abi_links_null_record (st : Store) (self : ContractRec)
    (name : String) (eb : EtherscanBehavior) :
    (sync_abi_from_api st self (.returns (some ⟨.null, name⟩)) eb).res = .ok true
    ∧ (sync_abi_from_api st self
        (.returns (some ⟨.null, name⟩)) eb).explorerInvoked = false
    ∧ ∃ r ∈ (sync_abi_from_api st self
        (.returns (some ⟨.null, name⟩)) eb).store.abis,
        r.abi = .null
        ∧ (sync_abi_from_api st self
            (.returns (some ⟨.null, name⟩)) eb).self.contract_abi = some r.pk := by
  refine ⟨rfl, rfl, ?_⟩
  obtain ⟨h1, h2⟩ := updateOrCreateAbi_spec st .null (some name)
  exact ⟨(updateOrCreateAbi st AbiValue.null (some name)).1, h2, h1, rfl⟩

end ContractsModels
